import Mathlib

/-!
Shallow embedding of the maze-rotation / physics-synchronization subsystem of
the CDEV_G9_2025 maze-tilting game, together with theorems settling the frozen
claims about it.

Conventions of the embedding:
* JavaScript numbers are modelled as rationals (`ℚ`); all the arithmetic the
  claims exercise is exact (additions, multiplications, divisions,
  comparisons), so `ℚ` is a faithful carrier and keeps every definition
  executable.
* Three.js / cannon-es vectors and quaternions are four- resp. three-field
  records of rationals.  `Quat.mult` is cannon-es `Quaternion.prototype.mult`
  (the Hamilton product) and `Vec3.applyQuaternion` is three.js
  `Vector3.prototype.applyQuaternion` (the `t = 2 (q.xyz × v)` form), both
  transcribed literally.
* Angle-to-quaternion conversion (`setFromEuler`) involves trigonometric
  functions, so orientations produced from Euler angles enter the model as
  explicit quaternion inputs; the reference orientations the code stores at
  creation time (`wallOriginalQuaternions`, the ground `planeOffset`) are kept
  as parameters for the same reason.  Nothing in the claims depends on their
  numeric values, only on how the sync code composes them.
-/

/-- A three-component vector of rationals (three.js `Vector3` / cannon-es
`Vec3`). -/
structure Vec3 where
  x : ℚ
  y : ℚ
  z : ℚ
deriving DecidableEq, Repr

/-- A quaternion (three.js / cannon-es `Quaternion`), stored as `(x, y, z, w)`
exactly as in both libraries. -/
structure Quat where
  x : ℚ
  y : ℚ
  z : ℚ
  w : ℚ
deriving DecidableEq, Repr

/-- Squared Euclidean norm of a vector (`v.lengthSq()`); distances are
compared through their squares so that everything stays inside `ℚ`. -/
def Vec3.normSq (v : Vec3) : ℚ :=
  v.x * v.x + v.y * v.y + v.z * v.z

/-- Squared norm of a quaternion; a quaternion produced by `setFromEuler`
always has `normSq = 1`. -/
def Quat.normSq (q : Quat) : ℚ :=
  q.x * q.x + q.y * q.y + q.z * q.z + q.w * q.w

/-- cannon-es `Quaternion.prototype.mult`: the Hamilton product `a ⊗ b`
(`this = a`, argument = `b`), transcribed coordinate by coordinate. -/
def Quat.mult (a b : Quat) : Quat :=
  { x := a.x * b.w + a.w * b.x + a.y * b.z - a.z * b.y
    y := a.y * b.w + a.w * b.y + a.z * b.x - a.x * b.z
    z := a.z * b.w + a.w * b.z + a.x * b.y - a.y * b.x
    w := a.w * b.w - a.x * b.x - a.y * b.y - a.z * b.z }

/-- three.js `Vector3.prototype.applyQuaternion`: rotates `v` by the (unit)
quaternion `q` via `t = 2 (q.xyz × v)`, `v' = v + q.w t + q.xyz × t`. -/
def Vec3.applyQuaternion (v : Vec3) (q : Quat) : Vec3 :=
  let tx : ℚ := 2 * (q.y * v.z - q.z * v.y)
  let ty : ℚ := 2 * (q.z * v.x - q.x * v.z)
  let tz : ℚ := 2 * (q.x * v.y - q.y * v.x)
  { x := v.x + q.w * tx + q.y * tz - q.z * ty
    y := v.y + q.w * ty + q.z * tx - q.x * tz
    z := v.z + q.w * tz + q.x * ty - q.y * tx }

/-- Rotation by a unit quaternion preserves the squared norm.  The difference
of the two squared norms is the polynomial
`4 ‖q.xyz × v‖² (‖q‖² - 1)`, which vanishes when `‖q‖² = 1`. -/
theorem Vec3.normSq_applyQuaternion (v : Vec3) (q : Quat) (hq : q.normSq = 1) :
    (v.applyQuaternion q).normSq = v.normSq := by
  have expand : (v.applyQuaternion q).normSq - v.normSq =
      4 * ((q.y * v.z - q.z * v.y) * (q.y * v.z - q.z * v.y)
          + (q.z * v.x - q.x * v.z) * (q.z * v.x - q.x * v.z)
          + (q.x * v.y - q.y * v.x) * (q.x * v.y - q.y * v.x)) *
        (q.normSq - 1) := by
    simp only [Vec3.applyQuaternion, Vec3.normSq, Quat.normSq]
    ring
  have h0 : (v.applyQuaternion q).normSq - v.normSq = 0 := by
    rw [expand, hq]; ring
  linarith

/-! ## Zones, balls and the AABB overlap test (`src/core/Game.js`,
`src/core/MazeController.js` — `LevelManager`) -/

/-- A ball as the overlap test sees it: the physics body's position
(`ball.body.position`) and the sphere shape's radius
(`ball.body.shapes[0].radius`). -/
structure BallState where
  position : Vec3
  radius : ℚ
deriving DecidableEq, Repr

/-- A target zone.  `center` is `zone.body.position`, `halfExtents` is
`zone.body.shapes[0].halfExtents`, `isGreen` the mutable occupied flag, and
`refPos` the entry the `LevelManager` keeps in `zoneOriginalPositions`
(the two parallel arrays of the source are merged into one record list). -/
structure ZoneState where
  refPos : Vec3
  center : Vec3
  halfExtents : Vec3
  isGreen : Bool
deriving DecidableEq, Repr

/-- `Game.checkAABBCollision(zone, ball)`: axis-aligned bounding-box overlap,
with all six comparisons inclusive (`>=` / `<=`), transcribed literally. -/
def checkAABBCollision (zone : ZoneState) (ball : BallState) : Bool :=
  let zoneMin : Vec3 :=
    ⟨zone.center.x - zone.halfExtents.x, zone.center.y - zone.halfExtents.y,
      zone.center.z - zone.halfExtents.z⟩
  let zoneMax : Vec3 :=
    ⟨zone.center.x + zone.halfExtents.x, zone.center.y + zone.halfExtents.y,
      zone.center.z + zone.halfExtents.z⟩
  let sphereMin : Vec3 :=
    ⟨ball.position.x - ball.radius, ball.position.y - ball.radius,
      ball.position.z - ball.radius⟩
  let sphereMax : Vec3 :=
    ⟨ball.position.x + ball.radius, ball.position.y + ball.radius,
      ball.position.z + ball.radius⟩
  let overlapX := decide (sphereMax.x ≥ zoneMin.x) && decide (sphereMin.x ≤ zoneMax.x)
  let overlapY := decide (sphereMax.y ≥ zoneMin.y) && decide (sphereMin.y ≤ zoneMax.y)
  let overlapZ := decide (sphereMax.z ≥ zoneMin.z) && decide (sphereMin.z ≤ zoneMax.z)
  overlapX && overlapY && overlapZ

/-- The per-zone body of `Game.checkZones`: compute `hasCollision` against
every ball, then flip `isGreen` on the two transition edges (the colour
change is presentation and is dropped). -/
def zoneCheck (balls : List BallState) (zone : ZoneState) : ZoneState :=
  let hasCollision := balls.any fun ball => checkAABBCollision zone ball
  if hasCollision && !zone.isGreen then { zone with isGreen := true }
  else if !hasCollision && zone.isGreen then { zone with isGreen := false }
  else zone

/-- `Game.checkZones`: updates every zone and returns
`(zones', greenZones, totalZones, allGreen)` with
`allGreen = (greenCount === zones.length && greenCount > 0)`. -/
def checkZones (zones : List ZoneState) (balls : List BallState) :
    List ZoneState × ℕ × ℕ × Bool :=
  let zones' := zones.map (zoneCheck balls)
  let greenCount := (zones'.filter fun z => z.isGreen).length
  (zones', greenCount, zones'.length,
    decide (greenCount = zones'.length) && decide (0 < greenCount))

/-- A zone spec from the level configuration (`position`, `size`). -/
structure ZoneConfig where
  position : Vec3
  size : Vec3
deriving DecidableEq, Repr

/-- `LevelManager.createZones`: each zone starts red (`isGreen = false`) at its
configured position, with half-extents `size / 2`, and its position recorded
for later re-derivation. -/
def createZones (configs : List ZoneConfig) : List ZoneState :=
  configs.map fun c =>
    { refPos := c.position
      center := c.position
      halfExtents := ⟨c.size.x / 2, c.size.y / 2, c.size.z / 2⟩
      isGreen := false }

/-- `MazeController.syncZones` (per zone): live position = reference position
rotated by the maze body's orientation; the zone also copies the maze
orientation onto its own body (not tracked, the overlap test reads only
position and half-extents). -/
def syncZone (mazeQuat : Quat) (zone : ZoneState) : ZoneState :=
  { zone with center := zone.refPos.applyQuaternion mazeQuat }

/-! ## Boundary planes (`src/core/MazeController.js` — `syncGround`,
`syncWalls`; creation in `LevelManager.createGround` / `createWalls`) -/

/-- The `bounds` record of a level configuration (the fields the
synchronization reads). -/
structure LevelBounds where
  wallDistance : ℚ
  groundOffsetY : ℚ
deriving DecidableEq, Repr

/-- Live pose of one collision plane (a cannon-es static body). -/
structure PlaneBody where
  position : Vec3
  quaternion : Quat
deriving DecidableEq, Repr

/-- `MazeController.syncGround`: the ground stays FIXED at
`(0, groundOffsetY, 0)` — the reference offset is *not* rotated — and its
orientation is `mazeQuat ⊗ planeOffset` where `planeOffset` is the stored
`setFromEuler(-π/2, 0, 0)` quaternion (kept as a parameter because its entries
are trigonometric). -/
def syncGround (mazeQuat planeOffset : Quat) (bounds : LevelBounds) : PlaneBody :=
  { position := ⟨0, bounds.groundOffsetY, 0⟩
    quaternion := mazeQuat.mult planeOffset }

/-- The `wallOriginalPositions` array of `syncWalls` (North, South, East,
West), before the `groundOffsetY` shift. -/
def wallOriginalPosition (bounds : LevelBounds) : Fin 4 → Vec3
  | 0 => ⟨0, 0, -bounds.wallDistance⟩
  | 1 => ⟨0, 0, bounds.wallDistance⟩
  | 2 => ⟨bounds.wallDistance, 0, 0⟩
  | 3 => ⟨-bounds.wallDistance, 0, 0⟩

/-- The reference offset `syncWalls` rotates: the original wall position with
`groundOffsetY` added to the `y` component. -/
def wallReferenceOffset (bounds : LevelBounds) (i : Fin 4) : Vec3 :=
  ⟨(wallOriginalPosition bounds i).x,
    (wallOriginalPosition bounds i).y + bounds.groundOffsetY,
    (wallOriginalPosition bounds i).z⟩

/-- `MazeController.syncWalls` (per wall `i`): live position = reference
offset rotated by the maze orientation, with no maze translation added; live
orientation = `mazeQuat ⊗ wallOriginalQuaternions[i]` (maze rotation first).
The stored reference quaternions (`setFromEuler` of the creation-time Euler
angles) are parameters. -/
def syncWalls (mazeQuat : Quat) (bounds : LevelBounds) (refQuats : Fin 4 → Quat)
    (i : Fin 4) : PlaneBody :=
  { position := (wallReferenceOffset bounds i).applyQuaternion mazeQuat
    quaternion := mazeQuat.mult (refQuats i) }

/-- The live boundary subsystem: the ground plane plus the four walls. -/
structure BoundaryLive where
  ground : PlaneBody
  walls : Fin 4 → PlaneBody

/-- One full boundary synchronization pass (`syncGround` followed by
`syncWalls`, as `MazeController.update` performs every frame).  The previous
live state is overwritten wholesale, exactly as in the source. -/
def syncBoundary (bounds : LevelBounds) (planeOffset : Quat)
    (refQuats : Fin 4 → Quat) (mazeQuat : Quat) (_prev : BoundaryLive) :
    BoundaryLive :=
  { ground := syncGround mazeQuat planeOffset bounds
    walls := syncWalls mazeQuat bounds refQuats }

/-- A sequence of boundary synchronization calls with the given maze
orientations, applied in order. -/
def applySyncs (bounds : LevelBounds) (planeOffset : Quat)
    (refQuats : Fin 4 → Quat) (init : BoundaryLive) (quats : List Quat) :
    BoundaryLive :=
  quats.foldl (fun st q => syncBoundary bounds planeOffset refQuats q st) init

/-! ## Maze entity and controller input (`src/utils/maze.js`,
`src/core/MazeController.js`) -/

/-- The maze entity (`Maze` in `src/utils/maze.js`): the pivot group's
position and Euler rotation (`mesh.rotation`, order XYZ).  The physics body
mirrors them through `setRotation`; the body's quaternion is
`setFromEuler` of the same angles and therefore enters the sync functions as
an explicit quaternion input. -/
structure MazeState where
  loaded : Bool
  position : Vec3
  rotationEuler : Vec3
deriving DecidableEq, Repr

/-- `Maze.setRotation(x, y, z)`: a no-op before the asset is loaded; otherwise
stores the Euler angles on the visual transform and synchronously mirrors
position and orientation onto the physics body. -/
def Maze.setRotation (m : MazeState) (x y z : ℚ) : MazeState :=
  if !m.loaded then m
  else { m with rotationEuler := ⟨x, y, z⟩ }

/-- The tilt the controller derives from the two-axis input signal:
`tiltX = -mouseY * maxTilt`, `tiltZ = -mouseX * maxTilt`
(`MazeController.update`). -/
def controllerTilt (maxTilt mouseX mouseY : ℚ) : ℚ × ℚ :=
  (-mouseY * maxTilt, -mouseX * maxTilt)

/-- The maze-rotation step of `MazeController.update`: early return when no
maze/level is loaded, otherwise `maze.setRotation(tiltX, 0, tiltZ)`. -/
def controllerUpdateMaze (maxTilt mouseX mouseY : ℚ) (m : MazeState) : MazeState :=
  if !m.loaded then m
  else Maze.setRotation m (controllerTilt maxTilt mouseX mouseY).1 0
        (controllerTilt maxTilt mouseX mouseY).2

/-! ## The game state machine (`src/core/Game.js`, frame loop in
`src/main.js`) -/

/-- The slice of the global configuration the win path reads: the maximum
tilt and the set of level ids present in `config.levelsConfig`. -/
structure GameConfig where
  maxTilt : ℚ
  levelIds : List ℕ
deriving DecidableEq, Repr

/-- The game's mutable state: current level id, maze, zones, and the two
flags `hasWon` / `isPlaying`. -/
structure GameState where
  currentLevelId : ℕ
  maze : MazeState
  zones : List ZoneState
  hasWon : Bool
  isPlaying : Bool
deriving DecidableEq, Repr

/-- The per-frame inputs `Game.update` consumes: the mouse signal the
controller reads, the maze body quaternion that results from
`setFromEuler(tiltX, 0, tiltZ)` (exogenous because `setFromEuler` is
trigonometric), and the ball states the physics step produced. -/
structure FrameInput where
  mouseX : ℚ
  mouseY : ℚ
  mazeQuat : Quat
  balls : List BallState
deriving DecidableEq, Repr

/-- Signals the game sends its external UI collaborator during one
`Game.update`: the per-frame HUD refresh and the one-shot win overlay
carrying the id of the next level when one is configured. -/
inductive UIEffect where
  | hudUpdate (levelId greenZones totalZones : ℕ)
  | winOverlay (nextLevel : Option ℕ)
deriving DecidableEq, Repr

/-- The zones as `Game.checkZones` sees them on this frame: re-derived from
their reference positions by `MazeController.syncZones` when a maze is
loaded (the controller's early-return guard otherwise leaves them as they
were). -/
def frameZones (g : GameState) (inp : FrameInput) : List ZoneState :=
  if g.maze.loaded then g.zones.map (syncZone inp.mazeQuat) else g.zones

/-- `Game.update`: early return when not playing; otherwise run the
controller (maze rotation plus zone/boundary re-derivation), sync ball
visuals (presentation, not tracked), check the zones, refresh the HUD, and
enter the win state when every zone is green and the game had not yet won.
`Game.onWin` flips `hasWon`, clears `isPlaying` and shows the win overlay
with a next-level continuation exactly when `config.levelsConfig` contains
`currentLevelId + 1`. -/
def Game.update (cfg : GameConfig) (g : GameState) (inp : FrameInput) :
    GameState × List UIEffect :=
  if !g.isPlaying then (g, [])
  else
    let maze' := controllerUpdateMaze cfg.maxTilt inp.mouseX inp.mouseY g.maze
    let res := checkZones (frameZones g inp) inp.balls
    let g' := { g with maze := maze', zones := res.1 }
    let fx := [UIEffect.hudUpdate g.currentLevelId res.2.1 res.2.2.1]
    if res.2.2.2 && !g.hasWon then
      let nextId := g.currentLevelId + 1
      let nextLevel : Option ℕ :=
        if cfg.levelIds.contains nextId then some nextId else none
      ({ g' with hasWon := true, isPlaying := false },
        fx ++ [UIEffect.winOverlay nextLevel])
    else (g', fx)

/-- `Game.pause`. -/
def Game.pause (g : GameState) : GameState :=
  { g with isPlaying := false }

/-- `Game.resume`: only resumes when the level has not been won. -/
def Game.resume (g : GameState) : GameState :=
  if !g.hasWon then { g with isPlaying := true } else g

/-- Net effect of `Game.startLevel` on the tracked state: a fresh level
instance with `hasWon = false` and, once loading resolves, `isPlaying = true`
and freshly created (all-red) zones. -/
def Game.startLevel (levelId : ℕ) (maze : MazeState)
    (zoneConfigs : List ZoneConfig) : GameState :=
  { currentLevelId := levelId
    maze := maze
    zones := createZones zoneConfigs
    hasWon := false
    isPlaying := true }

/-- Repeated frames of `Game.update` (states only). -/
def Game.run (cfg : GameConfig) (g : GameState) (inps : List FrameInput) :
    GameState :=
  inps.foldl (fun s i => (Game.update cfg s i).1) g

/-- Abstraction of the cannon-es `World`: the frame loop only ever calls
`world.step(...)` on it, so the model records how many steps ran. -/
structure WorldState where
  stepsExecuted : ℕ
deriving DecidableEq, Repr

/-- One iteration of `animate` in `src/main.js`: `world.step` runs
unconditionally, then `game.update` (camera zoom, debug drawing and
rendering are presentation and not tracked). -/
def animateFrame (cfg : GameConfig) (w : WorldState) (g : GameState)
    (inp : FrameInput) : WorldState × GameState × List UIEffect :=
  let w' : WorldState := { stepsExecuted := w.stepsExecuted + 1 }
  let res := Game.update cfg g inp
  (w', res.1, res.2)

/-! ## Mesh-to-collision conversion (`src/physics.js`) -/

/-- A three.js `BufferGeometry` as the converter reads it: the `position`
attribute (a list of vertex coordinates; `none` models a malformed geometry
whose `attributes.position` is `undefined`, the access that throws inside the
converter) and the optional index buffer. -/
structure BufferGeometry where
  positions : Option (List Vec3)
  index : Option (List ℕ)
deriving DecidableEq, Repr

/-- A cannon-es `Trimesh`: the flat vertex array and the triangle index
array. -/
structure Trimesh where
  vertices : List ℚ
  indices : List ℕ
deriving DecidableEq, Repr

/-- The vertex-extraction loop of `createTrimeshFromGeometry`: for each
vertex, push `getX(i) * scale.x`, `getY(i) * scale.y`, `getZ(i) * scale.z`. -/
def trimeshVertexLoop (scale : Vec3) : List Vec3 → List ℚ
  | [] => []
  | p :: rest =>
      p.x * scale.x :: p.y * scale.y :: p.z * scale.z :: trimeshVertexLoop scale rest

/-- `createTrimeshFromGeometry(geometry, scale)`: scale every vertex
coordinate component-wise, copy the index buffer when present and otherwise
synthesize the sequential list `0 .. N-1`; accessing a missing `position`
attribute throws (surfaced as `Except.error`, caught by the caller). -/
def createTrimeshFromGeometry (geometry : BufferGeometry) (scale : Vec3) :
    Except String Trimesh :=
  match geometry.positions with
  | none => .error "TypeError: reading count of undefined position attribute"
  | some ps =>
      .ok { vertices := trimeshVertexLoop scale ps
            indices :=
              match geometry.index with
              | some ix => ix
              | none => List.range ps.length }

/-- One node of the loaded model as `createCompoundBodyFromModel` inspects
it: the `isMesh` flag, the geometry, and the world transforms the converter
queries (`getWorldScale`, `getWorldPosition`, `getWorldQuaternion`). -/
structure SubMesh where
  isMesh : Bool
  geometry : Option BufferGeometry
  worldScale : Vec3
  worldPosition : Vec3
  worldQuaternion : Quat
deriving DecidableEq, Repr

/-- The scene graph handed to the converter: a node plus its children. -/
inductive SceneNode where
  | node (self : SubMesh) (children : List SceneNode)

mutual
/-- `THREE.Object3D.traverse`: visit the object itself, then every
descendant, in pre-order. -/
def SceneNode.traverse : SceneNode → List SubMesh
  | .node self children => self :: SceneNode.traverseList children
/-- Traverse a list of sibling nodes in order. -/
def SceneNode.traverseList : List SceneNode → List SubMesh
  | [] => []
  | n :: rest => n.traverse ++ SceneNode.traverseList rest
end

/-- The root's own `SubMesh` record (the model whose world position anchors
all relative offsets). -/
def SceneNode.self : SceneNode → SubMesh
  | .node s _ => s

/-- One shape of the compound body: the trimesh plus the offset
(`childWorldPos - modelWorldPos`) and world orientation it is attached at. -/
structure CompoundShape where
  shape : Trimesh
  offset : Vec3
  orientation : Quat
deriving DecidableEq, Repr

/-- The per-child body of the `model.traverse` callback in
`createCompoundBodyFromModel`: only children with `isMesh && geometry` are
considered; a throw inside the `try` block (malformed geometry) is caught,
logged and yields no shape. -/
def processChild (modelWorldPos : Vec3) (child : SubMesh) : Option CompoundShape :=
  if child.isMesh && child.geometry.isSome then
    match child.geometry with
    | none => none
    | some geo =>
        match createTrimeshFromGeometry geo child.worldScale with
        | .error _ => none
        | .ok t =>
            some { shape := t
                   offset := ⟨child.worldPosition.x - modelWorldPos.x,
                              child.worldPosition.y - modelWorldPos.y,
                              child.worldPosition.z - modelWorldPos.z⟩
                   orientation := child.worldQuaternion }
  else none

/-- The shapes a traversal-order list of sub-meshes contributes to the
compound body. -/
def compoundShapesOf (modelWorldPos : Vec3) (subs : List SubMesh) :
    List CompoundShape :=
  subs.filterMap (processChild modelWorldPos)

/-- `createCompoundBodyFromModel(model)`: traverse the model and collect one
trimesh shape per convertible sub-mesh into a single static body. -/
def createCompoundBodyFromModel (model : SceneNode) : List CompoundShape :=
  compoundShapesOf model.self.worldPosition model.traverse

/-- The renderable sub-meshes of a traversal: those with `isMesh` set and a
geometry attached (the `child.isMesh && child.geometry` filter). -/
def renderableSubMeshes (subs : List SubMesh) : List SubMesh :=
  subs.filter fun m => m.isMesh && m.geometry.isSome

/-! ## Ball velocity clamp -/

/-- Scalar multiple of a vector. -/
def Vec3.smul (c : ℚ) (v : Vec3) : Vec3 :=
  ⟨c * v.x, c * v.y, c * v.z⟩

/-- Modelled from the spec: the per-frame ball velocity clamp ("if speed
exceeds a configured maximum, uniformly rescale the velocity vector to the
maximum before stepping").  No file under `src/` contains this code — the
repository's frame loops and `LevelManager.createBalls` never touch
`body.velocity` — so the operation is reconstructed from the spec's words.
`speed` stands for the computed magnitude `v.length()`; it is passed
explicitly, constrained by `speed² = v.normSq`, because square roots leave
`ℚ`. -/
def clampVelocity (maxSpeed speed : ℚ) (v : Vec3) : Vec3 :=
  if maxSpeed < speed then Vec3.smul (maxSpeed / speed) v else v

/-! ## Helper lemmas -/

/-- The claim-side description of the overlap test: the ball's AABB
(center ± radius) and the zone's AABB (center ± half-extents) overlap on all
three axes, boundary contact included. -/
def zoneBallAABBOverlap (zone : ZoneState) (ball : BallState) : Prop :=
  (zone.center.x - zone.halfExtents.x ≤ ball.position.x + ball.radius ∧
    ball.position.x - ball.radius ≤ zone.center.x + zone.halfExtents.x) ∧
  (zone.center.y - zone.halfExtents.y ≤ ball.position.y + ball.radius ∧
    ball.position.y - ball.radius ≤ zone.center.y + zone.halfExtents.y) ∧
  (zone.center.z - zone.halfExtents.z ≤ ball.position.z + ball.radius ∧
    ball.position.z - ball.radius ≤ zone.center.z + zone.halfExtents.z)

lemma checkAABBCollision_eq_true_iff (zone : ZoneState) (ball : BallState) :
    checkAABBCollision zone ball = true ↔ zoneBallAABBOverlap zone ball := by
  simp only [checkAABBCollision, zoneBallAABBOverlap, Bool.and_eq_true,
    decide_eq_true_eq, ge_iff_le]
  tauto

lemma zoneCheck_isGreen (balls : List BallState) (zone : ZoneState) :
    (zoneCheck balls zone).isGreen =
      balls.any fun ball => checkAABBCollision zone ball := by
  unfold zoneCheck
  cases h : balls.any fun ball => checkAABBCollision zone ball <;>
    cases hz : zone.isGreen <;> simp [h, hz]

lemma zoneCheck_center (balls : List BallState) (zone : ZoneState) :
    (zoneCheck balls zone).center = zone.center := by
  unfold zoneCheck
  cases balls.any fun ball => checkAABBCollision zone ball <;>
    cases zone.isGreen <;> simp

lemma zoneCheck_halfExtents (balls : List BallState) (zone : ZoneState) :
    (zoneCheck balls zone).halfExtents = zone.halfExtents := by
  unfold zoneCheck
  cases balls.any fun ball => checkAABBCollision zone ball <;>
    cases zone.isGreen <;> simp

/-! ## Claim theorems: the overlap test -/

/-- C4: a zone's occupied state after `checkZones` equals the AABB overlap
test — occupied holds exactly when some ball's AABB overlaps the zone's AABB
on all three axes — and on the literal fixtures: zone center `(10,3,10)` with
half-extents `(1.5, 0.5, 1.5)` is occupied by a ball at `(10,3,10)` of radius
`0.5` and not by one at `(20,3,10)`. -/
theorem zone_occupied_iff_aabb_overlap :
    (∀ (zone : ZoneState) (balls : List BallState),
        (zoneCheck balls zone).isGreen = true ↔
          ∃ ball ∈ balls, zoneBallAABBOverlap zone ball) ∧
    (zoneCheck [{ position := ⟨10, 3, 10⟩, radius := 1/2 }]
        { refPos := ⟨10, 3, 10⟩, center := ⟨10, 3, 10⟩,
          halfExtents := ⟨3/2, 1/2, 3/2⟩, isGreen := false }).isGreen = true ∧
    (zoneCheck [{ position := ⟨20, 3, 10⟩, radius := 1/2 }]
        { refPos := ⟨10, 3, 10⟩, center := ⟨10, 3, 10⟩,
          halfExtents := ⟨3/2, 1/2, 3/2⟩, isGreen := false }).isGreen = false := by
  refine ⟨fun zone balls => ?_,
    by norm_num [zoneCheck, checkAABBCollision, List.any],
    by norm_num [zoneCheck, checkAABBCollision, List.any]⟩
  rw [zoneCheck_isGreen, List.any_eq_true]
  constructor
  · rintro ⟨ball, hmem, hcheck⟩
    exact ⟨ball, hmem, (checkAABBCollision_eq_true_iff zone ball).mp hcheck⟩
  · rintro ⟨ball, hmem, hover⟩
    exact ⟨ball, hmem, (checkAABBCollision_eq_true_iff zone ball).mpr hover⟩

/-- C10: boundary contact counts as overlap.  For each of the three axes and
either side, a ball whose AABB exactly touches the zone's AABB on that axis
(`sphereMax = zoneMin` or `sphereMin = zoneMax`) while overlapping on the
other two axes is reported as colliding, because all six comparisons of
`checkAABBCollision` are inclusive; hence such a tangent ball sets the zone
occupied. -/
theorem aabb_tangency_counts_as_overlap :
    (∀ (zone : ZoneState) (ball : BallState),
        0 ≤ ball.radius → 0 ≤ zone.halfExtents.x →
        ball.position.x + ball.radius = zone.center.x - zone.halfExtents.x →
        (zone.center.y - zone.halfExtents.y ≤ ball.position.y + ball.radius ∧
          ball.position.y - ball.radius ≤ zone.center.y + zone.halfExtents.y) →
        (zone.center.z - zone.halfExtents.z ≤ ball.position.z + ball.radius ∧
          ball.position.z - ball.radius ≤ zone.center.z + zone.halfExtents.z) →
        checkAABBCollision zone ball = true) ∧
    (∀ (zone : ZoneState) (ball : BallState),
        0 ≤ ball.radius → 0 ≤ zone.halfExtents.x →
        ball.position.x - ball.radius = zone.center.x + zone.halfExtents.x →
        (zone.center.y - zone.halfExtents.y ≤ ball.position.y + ball.radius ∧
          ball.position.y - ball.radius ≤ zone.center.y + zone.halfExtents.y) →
        (zone.center.z - zone.halfExtents.z ≤ ball.position.z + ball.radius ∧
          ball.position.z - ball.radius ≤ zone.center.z + zone.halfExtents.z) →
        checkAABBCollision zone ball = true) ∧
    (∀ (zone : ZoneState) (ball : BallState),
        0 ≤ ball.radius → 0 ≤ zone.halfExtents.y →
        ball.position.y + ball.radius = zone.center.y - zone.halfExtents.y →
        (zone.center.x - zone.halfExtents.x ≤ ball.position.x + ball.radius ∧
          ball.position.x - ball.radius ≤ zone.center.x + zone.halfExtents.x) →
        (zone.center.z - zone.halfExtents.z ≤ ball.position.z + ball.radius ∧
          ball.position.z - ball.radius ≤ zone.center.z + zone.halfExtents.z) →
        checkAABBCollision zone ball = true) ∧
    (∀ (zone : ZoneState) (ball : BallState),
        0 ≤ ball.radius → 0 ≤ zone.halfExtents.y →
        ball.position.y - ball.radius = zone.center.y + zone.halfExtents.y →
        (zone.center.x - zone.halfExtents.x ≤ ball.position.x + ball.radius ∧
          ball.position.x - ball.radius ≤ zone.center.x + zone.halfExtents.x) →
        (zone.center.z - zone.halfExtents.z ≤ ball.position.z + ball.radius ∧
          ball.position.z - ball.radius ≤ zone.center.z + zone.halfExtents.z) →
        checkAABBCollision zone ball = true) ∧
    (∀ (zone : ZoneState) (ball : BallState),
        0 ≤ ball.radius → 0 ≤ zone.halfExtents.z →
        ball.position.z + ball.radius = zone.center.z - zone.halfExtents.z →
        (zone.center.x - zone.halfExtents.x ≤ ball.position.x + ball.radius ∧
          ball.position.x - ball.radius ≤ zone.center.x + zone.halfExtents.x) →
        (zone.center.y - zone.halfExtents.y ≤ ball.position.y + ball.radius ∧
          ball.position.y - ball.radius ≤ zone.center.y + zone.halfExtents.y) →
        checkAABBCollision zone ball = true) ∧
    (∀ (zone : ZoneState) (ball : BallState),
        0 ≤ ball.radius → 0 ≤ zone.halfExtents.z →
        ball.position.z - ball.radius = zone.center.z + zone.halfExtents.z →
        (zone.center.x - zone.halfExtents.x ≤ ball.position.x + ball.radius ∧
          ball.position.x - ball.radius ≤ zone.center.x + zone.halfExtents.x) →
        (zone.center.y - zone.halfExtents.y ≤ ball.position.y + ball.radius ∧
          ball.position.y - ball.radius ≤ zone.center.y + zone.halfExtents.y) →
        checkAABBCollision zone ball = true) ∧
    (∀ (zone : ZoneState) (ball : BallState),
        0 ≤ ball.radius → 0 ≤ zone.halfExtents.x →
        ball.position.x + ball.radius = zone.center.x - zone.halfExtents.x →
        (zone.center.y - zone.halfExtents.y ≤ ball.position.y + ball.radius ∧
          ball.position.y - ball.radius ≤ zone.center.y + zone.halfExtents.y) →
        (zone.center.z - zone.halfExtents.z ≤ ball.position.z + ball.radius ∧
          ball.position.z - ball.radius ≤ zone.center.z + zone.halfExtents.z) →
        (zoneCheck [ball] zone).isGreen = true) := by
  refine ⟨?_, ?_, ?_, ?_, ?_, ?_, ?_⟩ <;>
    intro zone ball hr hh heq hov1 hov2
  · exact (checkAABBCollision_eq_true_iff zone ball).mpr
      ⟨⟨by linarith, by linarith⟩, hov1, hov2⟩
  · exact (checkAABBCollision_eq_true_iff zone ball).mpr
      ⟨⟨by linarith, by linarith⟩, hov1, hov2⟩
  · exact (checkAABBCollision_eq_true_iff zone ball).mpr
      ⟨hov1, ⟨by linarith, by linarith⟩, hov2⟩
  · exact (checkAABBCollision_eq_true_iff zone ball).mpr
      ⟨hov1, ⟨by linarith, by linarith⟩, hov2⟩
  · exact (checkAABBCollision_eq_true_iff zone ball).mpr
      ⟨hov1, hov2, ⟨by linarith, by linarith⟩⟩
  · exact (checkAABBCollision_eq_true_iff zone ball).mpr
      ⟨hov1, hov2, ⟨by linarith, by linarith⟩⟩
  · rw [zoneCheck_isGreen]
    have := (checkAABBCollision_eq_true_iff zone ball).mpr
      ⟨⟨by linarith, by linarith⟩, hov1, hov2⟩
    simp [this]

/-- Witness for C10: a ball of radius 1 at `(-2, 0, 0)` exactly tangent to
the west face of the unit zone at the origin is reported as colliding. -/
theorem aabb_tangency_counts_as_overlap_witness :
    checkAABBCollision
      { refPos := ⟨0, 0, 0⟩, center := ⟨0, 0, 0⟩, halfExtents := ⟨1, 1, 1⟩,
        isGreen := false }
      { position := ⟨-2, 0, 0⟩, radius := 1 } = true :=
  aabb_tangency_counts_as_overlap.1
    { refPos := ⟨0, 0, 0⟩, center := ⟨0, 0, 0⟩, halfExtents := ⟨1, 1, 1⟩,
      isGreen := false }
    { position := ⟨-2, 0, 0⟩, radius := 1 }
    (by norm_num) (by norm_num) (by norm_num)
    (by constructor <;> norm_num) (by constructor <;> norm_num)

/-! ## Claim theorems: boundary synchronization -/

/-- C2 counterexample: with maze orientation `q = (0, 0, 17/145, 144/145)` —
a unit quaternion for a pure-`z` rotation of about `0.236 rad`, inside the
configured `maxTilt = π/12 ≈ 0.262 rad` and therefore reachable in gameplay —
and `groundOffsetY = 2` (the level-1 bounds), the ground plane's live
position after `syncGround` is the un-rotated reference offset `(0, 2, 0)`,
whereas the reference offset rotated by `q` has a non-zero `x` component: the
claimed equation fails for the ground plane. -/
theorem syncGround_position_not_rotated :
    (syncGround ⟨0, 0, 17/145, 144/145⟩ ⟨0, 0, 0, 1⟩
          { wallDistance := 14, groundOffsetY := 2 }).position ≠
      Vec3.applyQuaternion ⟨0, 2, 0⟩ ⟨0, 0, 17/145, 144/145⟩ := by
  simp only [syncGround, Vec3.applyQuaternion, ne_eq, Vec3.mk.injEq]
  norm_num

/-- C2 (amended): after a boundary synchronization with maze orientation `q`,
every live orientation is `q ⊗ referenceOrientation` (maze orientation
applied first) and no maze translation is ever added, and the four wall
planes' live positions equal their reference offsets rotated by `q`; the
ground plane, however, keeps its fixed un-rotated reference offset
`(0, groundOffsetY, 0)`. -/
theorem syncBoundary_poses (q planeOffset : Quat) (bounds : LevelBounds)
    (refQuats : Fin 4 → Quat) :
    (syncGround q planeOffset bounds).position = ⟨0, bounds.groundOffsetY, 0⟩ ∧
    (syncGround q planeOffset bounds).quaternion = q.mult planeOffset ∧
    (∀ i : Fin 4,
      (syncWalls q bounds refQuats i).position =
        (wallReferenceOffset bounds i).applyQuaternion q ∧
      (syncWalls q bounds refQuats i).quaternion = q.mult (refQuats i)) := by
  exact ⟨rfl, rfl, fun i => ⟨rfl, rfl⟩⟩

/-- C9: after any non-empty sequence of boundary synchronization calls whose
maze orientations are unit quaternions, every boundary plane's squared
distance from the world origin equals the squared magnitude of its un-rotated
reference offset (rotation by a unit quaternion preserves the norm, and the
ground plane simply keeps its reference offset), i.e. boundary
distance-from-center is invariant under maze tilt. -/
theorem boundary_distance_invariant (bounds : LevelBounds) (planeOffset : Quat)
    (refQuats : Fin 4 → Quat) (init : BoundaryLive) (quats : List Quat)
    (hne : quats ≠ []) (hunit : ∀ q ∈ quats, q.normSq = 1) :
    (applySyncs bounds planeOffset refQuats init quats).ground.position.normSq =
      (Vec3.normSq ⟨0, bounds.groundOffsetY, 0⟩) ∧
    ∀ i : Fin 4,
      ((applySyncs bounds planeOffset refQuats init quats).walls i).position.normSq =
        (wallReferenceOffset bounds i).normSq := by
  induction quats generalizing init with
  | nil => exact absurd rfl hne
  | cons q rest ih =>
    have hq : q.normSq = 1 := hunit q (List.mem_cons_self q rest)
    cases rest with
    | nil =>
        refine ⟨rfl, fun i => ?_⟩
        exact Vec3.normSq_applyQuaternion (wallReferenceOffset bounds i) q hq
    | cons q' rest' =>
        have hrest : (q' :: rest' : List Quat) ≠ [] := by simp
        have hunit' : ∀ p ∈ (q' :: rest' : List Quat), p.normSq = 1 :=
          fun p hp => hunit p (List.mem_cons_of_mem q hp)
        exact ih (syncBoundary bounds planeOffset refQuats q init) hrest hunit'

/-- Witness for C9: a single synchronization with the unit quaternion
`(0, 0, 1, 0)` on the level-1 bounds (`wallDistance = 14`,
`groundOffsetY = 2`) leaves every plane's squared distance from the origin
equal to that of its reference offset. -/
theorem boundary_distance_invariant_witness :
    ((applySyncs { wallDistance := 14, groundOffsetY := 2 } ⟨0, 0, 0, 1⟩
          (fun _ => ⟨0, 0, 0, 1⟩)
          { ground := { position := ⟨0, 0, 0⟩, quaternion := ⟨0, 0, 0, 1⟩ }
            walls := fun _ =>
              { position := ⟨0, 0, 0⟩, quaternion := ⟨0, 0, 0, 1⟩ } }
          [⟨0, 0, 1, 0⟩]).ground.position.normSq =
        (Vec3.normSq ⟨0, (2 : ℚ), 0⟩)) ∧
      ∀ i : Fin 4,
        ((applySyncs { wallDistance := 14, groundOffsetY := 2 } ⟨0, 0, 0, 1⟩
              (fun _ => ⟨0, 0, 0, 1⟩)
              { ground := { position := ⟨0, 0, 0⟩, quaternion := ⟨0, 0, 0, 1⟩ }
                walls := fun _ =>
                  { position := ⟨0, 0, 0⟩, quaternion := ⟨0, 0, 0, 1⟩ } }
              [⟨0, 0, 1, 0⟩]).walls i).position.normSq =
          (wallReferenceOffset { wallDistance := 14, groundOffsetY := 2 } i).normSq :=
  boundary_distance_invariant { wallDistance := 14, groundOffsetY := 2 }
    ⟨0, 0, 0, 1⟩ (fun _ => ⟨0, 0, 0, 1⟩)
    { ground := { position := ⟨0, 0, 0⟩, quaternion := ⟨0, 0, 0, 1⟩ }
      walls := fun _ => { position := ⟨0, 0, 0⟩, quaternion := ⟨0, 0, 0, 1⟩ } }
    [⟨0, 0, 1, 0⟩] (by simp)
    (by
      intro p hp
      simp only [List.mem_singleton] at hp
      subst hp
      norm_num [Quat.normSq])

/-! ## Claim theorems: controller tilt bound -/

/-- C6: for any two-axis input signal with both axes in `[-1, 1]` and a
non-negative configured `maxTilt`, the Euler rotation the per-frame controller
update applies to a loaded maze has every component within
`[-maxTilt, +maxTilt]` (the `y` component is always `0`), and reading the
orientation back after setting it returns exactly those bounded components. -/
theorem controller_tilt_within_bounds (maxTilt mouseX mouseY : ℚ)
    (m : MazeState) (hl : m.loaded = true) (hmx : |mouseX| ≤ 1)
    (hmy : |mouseY| ≤ 1) (ht : 0 ≤ maxTilt) :
    |(controllerUpdateMaze maxTilt mouseX mouseY m).rotationEuler.x| ≤ maxTilt ∧
    (controllerUpdateMaze maxTilt mouseX mouseY m).rotationEuler.y = 0 ∧
    |(controllerUpdateMaze maxTilt mouseX mouseY m).rotationEuler.z| ≤ maxTilt := by
  have hmx0 : 0 ≤ |mouseX| := abs_nonneg mouseX
  have hmy0 : 0 ≤ |mouseY| := abs_nonneg mouseY
  simp only [controllerUpdateMaze, Maze.setRotation, controllerTilt, hl,
    Bool.not_true, Bool.false_eq_true, if_false, ite_false]
  refine ⟨?_, trivial, ?_⟩
  · rw [abs_mul, abs_neg, abs_of_nonneg ht]
    nlinarith
  · rw [abs_mul, abs_neg, abs_of_nonneg ht]
    nlinarith

/-- Witness for C6: input `(mouseX, mouseY) = (1, -1/2)` with
`maxTilt = 1/4` on a loaded maze keeps every Euler component within the
bound. -/
theorem controller_tilt_within_bounds_witness :
    |(controllerUpdateMaze (1/4) 1 (-1/2)
        { loaded := true, position := ⟨0, 0, 0⟩,
          rotationEuler := ⟨0, 0, 0⟩ }).rotationEuler.x| ≤ (1/4 : ℚ) ∧
    (controllerUpdateMaze (1/4) 1 (-1/2)
        { loaded := true, position := ⟨0, 0, 0⟩,
          rotationEuler := ⟨0, 0, 0⟩ }).rotationEuler.y = 0 ∧
    |(controllerUpdateMaze (1/4) 1 (-1/2)
        { loaded := true, position := ⟨0, 0, 0⟩,
          rotationEuler := ⟨0, 0, 0⟩ }).rotationEuler.z| ≤ (1/4 : ℚ) :=
  controller_tilt_within_bounds (1/4) 1 (-1/2)
    { loaded := true, position := ⟨0, 0, 0⟩, rotationEuler := ⟨0, 0, 0⟩ }
    rfl (by rw [abs_le]; norm_num) (by rw [abs_le]; norm_num) (by norm_num)

/-! ## Helper lemmas for the win state machine -/

lemma length_filter_eq_length_iff {α : Type} (p : α → Bool) (l : List α) :
    (l.filter p).length = l.length ↔ ∀ a ∈ l, p a = true := by
  constructor
  · intro h
    have hself : l.filter p = l := (List.filter_sublist (l := l)).eq_of_length h
    intro a ha
    exact List.filter_eq_self.mp hself a ha
  · intro h
    rw [List.filter_eq_self.mpr h]

lemma checkZones_allGreen_iff (zones : List ZoneState) (balls : List BallState) :
    (checkZones zones balls).2.2.2 = true ↔
      (zones ≠ [] ∧
        ∀ z ∈ zones, (balls.any fun b => checkAABBCollision z b) = true) := by
  unfold checkZones
  simp only [Bool.and_eq_true, decide_eq_true_eq]
  constructor
  · rintro ⟨hlen, hpos⟩
    have hall := (length_filter_eq_length_iff (fun z => z.isGreen)
      (zones.map (zoneCheck balls))).mp hlen
    refine ⟨?_, ?_⟩
    · intro hnil
      subst hnil
      simp at hpos
    · intro z hz
      have := hall (zoneCheck balls z) (List.mem_map_of_mem (zoneCheck balls) hz)
      rwa [zoneCheck_isGreen] at this
  · rintro ⟨hne, hall⟩
    have hgreen : ∀ z' ∈ zones.map (zoneCheck balls), z'.isGreen = true := by
      intro z' hz'
      obtain ⟨z, hz, rfl⟩ := List.mem_map.mp hz'
      rw [zoneCheck_isGreen]
      exact hall z hz
    have hlen := (length_filter_eq_length_iff (fun z => z.isGreen)
      (zones.map (zoneCheck balls))).mpr hgreen
    refine ⟨hlen, ?_⟩
    rw [hlen, List.length_map]
    exact List.length_pos.mpr hne

lemma checkZones_nil_allGreen (balls : List BallState) :
    (checkZones [] balls).2.2.2 = false := by
  simp [checkZones]

lemma Game.update_hasWon_eq (cfg : GameConfig) (g : GameState)
    (inp : FrameInput) :
    (Game.update cfg g inp).1.hasWon =
      (g.hasWon ||
        (g.isPlaying && (checkZones (frameZones g inp) inp.balls).2.2.2)) := by
  unfold Game.update
  cases hp : g.isPlaying <;> cases hw : g.hasWon <;>
    cases hall : (checkZones (frameZones g inp) inp.balls).2.2.2 <;>
      simp [hp, hw, hall]

lemma Game.update_zones_eq (cfg : GameConfig) (g : GameState)
    (inp : FrameInput) :
    (Game.update cfg g inp).1.zones =
      if g.isPlaying then (frameZones g inp).map (zoneCheck inp.balls)
      else g.zones := by
  unfold Game.update checkZones
  cases hp : g.isPlaying <;> cases hw : g.hasWon
  all_goals simp [hp, hw]
  all_goals try (split <;> simp)

lemma frameZones_nil (g : GameState) (inp : FrameInput) (h : g.zones = []) :
    frameZones g inp = [] := by
  unfold frameZones
  rw [h]
  cases g.maze.loaded <;> simp

/-! ## Claim theorems: the win state machine -/

/-- C3: (i) one `Game.update` leaves the win state set exactly when it was
already set or the frame finds every zone (at its frame position)
simultaneously occupied while playing, with at least one zone existing — so
the win state is entered on the first frame all zones report occupied;
(ii) a level with zero zones never reaches the win state along any run;
(iii) once set, the win state persists along any run of updates; (iv) pause
and resume never change it; (v) only loading a new level resets it. -/
theorem win_state_machine :
    (∀ (cfg : GameConfig) (g : GameState) (inp : FrameInput),
        (Game.update cfg g inp).1.hasWon = true ↔
          (g.hasWon = true ∨
            (g.isPlaying = true ∧ frameZones g inp ≠ [] ∧
              ∀ z ∈ frameZones g inp,
                (inp.balls.any fun b => checkAABBCollision z b) = true))) ∧
    (∀ (cfg : GameConfig) (g : GameState) (inps : List FrameInput),
        g.zones = [] → g.hasWon = false →
        (Game.run cfg g inps).hasWon = false) ∧
    (∀ (cfg : GameConfig) (g : GameState) (inps : List FrameInput),
        g.hasWon = true → (Game.run cfg g inps).hasWon = true) ∧
    (∀ g : GameState,
        (Game.pause g).hasWon = g.hasWon ∧ (Game.resume g).hasWon = g.hasWon) ∧
    (∀ (levelId : ℕ) (maze : MazeState) (zoneConfigs : List ZoneConfig),
        (Game.startLevel levelId maze zoneConfigs).hasWon = false) := by
  have hstep : ∀ (cfg : GameConfig) (g : GameState) (inp : FrameInput),
      (Game.update cfg g inp).1.hasWon = true ↔
        (g.hasWon = true ∨
          (g.isPlaying = true ∧ frameZones g inp ≠ [] ∧
            ∀ z ∈ frameZones g inp,
              (inp.balls.any fun b => checkAABBCollision z b) = true)) := by
    intro cfg g inp
    rw [Game.update_hasWon_eq]
    cases hw : g.hasWon <;> cases hp : g.isPlaying <;>
      simp [checkZones_allGreen_iff, and_assoc]
  refine ⟨hstep, ?_, ?_, ?_, ?_⟩
  · intro cfg g inps h0 hw
    induction inps generalizing g with
    | nil => exact hw
    | cons inp rest ih =>
        have hz' : (Game.update cfg g inp).1.zones = [] := by
          rw [Game.update_zones_eq, frameZones_nil g inp h0]
          cases g.isPlaying <;> simp [h0]
        have hw' : (Game.update cfg g inp).1.hasWon = false := by
          rw [Game.update_hasWon_eq, hw, frameZones_nil g inp h0,
            checkZones_nil_allGreen]
          simp
        exact ih (Game.update cfg g inp).1 hz' hw'
  · intro cfg g inps hw
    induction inps generalizing g with
    | nil => exact hw
    | cons inp rest ih =>
        have hw' : (Game.update cfg g inp).1.hasWon = true := by
          rw [Game.update_hasWon_eq, hw]
          simp
        exact ih (Game.update cfg g inp).1 hw'
  · intro g
    refine ⟨rfl, ?_⟩
    unfold Game.resume
    cases hw : g.hasWon <;> simp [hw]
  · intro levelId maze zoneConfigs
    rfl

/-- Witness for C3: on a fresh one-zone level with the ball sitting inside
the zone, a single update enters the win state. -/
theorem win_state_machine_witness :
    (Game.update { maxTilt := 1/4, levelIds := [1, 2] }
        { currentLevelId := 1
          maze := { loaded := false, position := ⟨0, 0, 0⟩,
                    rotationEuler := ⟨0, 0, 0⟩ }
          zones := [{ refPos := ⟨0, 0, 0⟩, center := ⟨0, 0, 0⟩,
                      halfExtents := ⟨1, 1, 1⟩, isGreen := false }]
          hasWon := false
          isPlaying := true }
        { mouseX := 0, mouseY := 0, mazeQuat := ⟨0, 0, 0, 1⟩,
          balls := [{ position := ⟨0, 0, 0⟩, radius := 1/2 }] }).1.hasWon =
      true := by
  apply (win_state_machine.1 { maxTilt := 1/4, levelIds := [1, 2] }
      { currentLevelId := 1
        maze := { loaded := false, position := ⟨0, 0, 0⟩,
                  rotationEuler := ⟨0, 0, 0⟩ }
        zones := [{ refPos := ⟨0, 0, 0⟩, center := ⟨0, 0, 0⟩,
                    halfExtents := ⟨1, 1, 1⟩, isGreen := false }]
        hasWon := false
        isPlaying := true }
      { mouseX := 0, mouseY := 0, mazeQuat := ⟨0, 0, 0, 1⟩,
        balls := [{ position := ⟨0, 0, 0⟩, radius := 1/2 }] }).mpr
  refine Or.inr ⟨rfl, ?_, ?_⟩
  · simp [frameZones]
  · intro z hz
    simp only [frameZones, Bool.false_eq_true, if_false, List.mem_singleton] at hz
    subst hz
    norm_num [List.any, checkAABBCollision]

/-- C5 counterexample: in a state that has already won (`hasWon = true`,
`isPlaying = false`), one more frame of the animation loop still executes a
physics step — `world.step` in `animate` runs unconditionally — so it is not
the case that no further physics processing occurs from the win frame
onward. -/
theorem physics_step_runs_after_win :
    ({ currentLevelId := 1
       maze := { loaded := false, position := ⟨0, 0, 0⟩,
                 rotationEuler := ⟨0, 0, 0⟩ }
       zones := []
       hasWon := true
       isPlaying := false } : GameState).hasWon = true ∧
    (animateFrame { maxTilt := 1/4, levelIds := [1, 2] } { stepsExecuted := 0 }
        { currentLevelId := 1
          maze := { loaded := false, position := ⟨0, 0, 0⟩,
                    rotationEuler := ⟨0, 0, 0⟩ }
          zones := []
          hasWon := true
          isPlaying := false }
        { mouseX := 0, mouseY := 0, mazeQuat := ⟨0, 0, 0, 1⟩,
          balls := [] }).1.stepsExecuted ≠
      ({ stepsExecuted := 0 } : WorldState).stepsExecuted := by
  constructor
  · rfl
  · norm_num [animateFrame]

/-- C5 (amended): once the game is frozen (`isPlaying = false`, as the win
transition leaves it), each animation frame performs no game processing at
all — the game state is unchanged and no UI signal is emitted, so along any
run the state stays frozen — but the global physics step still executes every
frame; and on the frame the win state is entered the game freezes and the UI
collaborator is signalled through the win overlay with the identity of the
next level exactly when `currentLevelId + 1` is configured. -/
theorem win_freezes_game_processing :
    (∀ (cfg : GameConfig) (w : WorldState) (g : GameState) (inp : FrameInput),
        g.isPlaying = false →
        (animateFrame cfg w g inp).2.1 = g ∧
        (animateFrame cfg w g inp).2.2 = [] ∧
        (animateFrame cfg w g inp).1.stepsExecuted = w.stepsExecuted + 1) ∧
    (∀ (cfg : GameConfig) (g : GameState) (inps : List FrameInput),
        g.isPlaying = false → Game.run cfg g inps = g) ∧
    (∀ (cfg : GameConfig) (g : GameState) (inp : FrameInput),
        g.isPlaying = true → g.hasWon = false →
        (checkZones (frameZones g inp) inp.balls).2.2.2 = true →
        (Game.update cfg g inp).1.hasWon = true ∧
        (Game.update cfg g inp).1.isPlaying = false ∧
        UIEffect.winOverlay
            (if cfg.levelIds.contains (g.currentLevelId + 1) then
              some (g.currentLevelId + 1)
            else none) ∈ (Game.update cfg g inp).2) := by
  have hfrozen : ∀ (cfg : GameConfig) (g : GameState) (inp : FrameInput),
      g.isPlaying = false → Game.update cfg g inp = (g, []) := by
    intro cfg g inp hp
    unfold Game.update
    rw [hp]
    rfl
  refine ⟨?_, ?_, ?_⟩
  · intro cfg w g inp hp
    unfold animateFrame
    rw [hfrozen cfg g inp hp]
    exact ⟨rfl, rfl, rfl⟩
  · intro cfg g inps hp
    induction inps with
    | nil => rfl
    | cons inp rest ih =>
        show Game.run cfg (Game.update cfg g inp).1 rest = g
        rw [hfrozen cfg g inp hp]
        exact ih
  · intro cfg g inp hp hw hall
    unfold Game.update
    rw [hp, hw]
    simp only [hall, Bool.not_false, Bool.and_self, if_true, Bool.not_true,
      Bool.false_eq_true, if_false, ite_true]
    refine ⟨trivial, trivial, ?_⟩
    simp

/-- Witness for C5's amended theorem: a frozen state is untouched while the
step counter advances, and a winning frame emits the overlay signal carrying
level 2. -/
theorem win_freezes_game_processing_witness :
    ((animateFrame { maxTilt := 1/4, levelIds := [1, 2] } { stepsExecuted := 5 }
        { currentLevelId := 1
          maze := { loaded := false, position := ⟨0, 0, 0⟩,
                    rotationEuler := ⟨0, 0, 0⟩ }
          zones := []
          hasWon := true
          isPlaying := false }
        { mouseX := 0, mouseY := 0, mazeQuat := ⟨0, 0, 0, 1⟩,
          balls := [] }).1.stepsExecuted = 6) ∧
    UIEffect.winOverlay (some 2) ∈
      (Game.update { maxTilt := 1/4, levelIds := [1, 2] }
        { currentLevelId := 1
          maze := { loaded := false, position := ⟨0, 0, 0⟩,
                    rotationEuler := ⟨0, 0, 0⟩ }
          zones := [{ refPos := ⟨0, 0, 0⟩, center := ⟨0, 0, 0⟩,
                      halfExtents := ⟨1, 1, 1⟩, isGreen := false }]
          hasWon := false
          isPlaying := true }
        { mouseX := 0, mouseY := 0, mazeQuat := ⟨0, 0, 0, 1⟩,
          balls := [{ position := ⟨0, 0, 0⟩, radius := 1/2 }] }).2 := by
  constructor
  · exact (win_freezes_game_processing.1 { maxTilt := 1/4, levelIds := [1, 2] }
      { stepsExecuted := 5 }
      { currentLevelId := 1
        maze := { loaded := false, position := ⟨0, 0, 0⟩,
                  rotationEuler := ⟨0, 0, 0⟩ }
        zones := []
        hasWon := true
        isPlaying := false }
      { mouseX := 0, mouseY := 0, mazeQuat := ⟨0, 0, 0, 1⟩, balls := [] }
      rfl).2.2
  · have := (win_freezes_game_processing.2.2 { maxTilt := 1/4, levelIds := [1, 2] }
      { currentLevelId := 1
        maze := { loaded := false, position := ⟨0, 0, 0⟩,
                  rotationEuler := ⟨0, 0, 0⟩ }
        zones := [{ refPos := ⟨0, 0, 0⟩, center := ⟨0, 0, 0⟩,
                    halfExtents := ⟨1, 1, 1⟩, isGreen := false }]
        hasWon := false
        isPlaying := true }
      { mouseX := 0, mouseY := 0, mazeQuat := ⟨0, 0, 0, 1⟩,
        balls := [{ position := ⟨0, 0, 0⟩, radius := 1/2 }] }
      rfl rfl
      (by norm_num [checkZones, frameZones, zoneCheck, checkAABBCollision,
        List.any, List.filter])).2.2
    simpa using this

/-! ## Claim theorems: mesh-to-collision conversion -/

lemma trimeshVertexLoop_eq (scale : Vec3) (ps : List Vec3) :
    trimeshVertexLoop scale ps =
      ps.flatMap fun p => [p.x * scale.x, p.y * scale.y, p.z * scale.z] := by
  induction ps with
  | nil => rfl
  | cons p rest ih =>
      simp [trimeshVertexLoop, ih]

/-- C7: for a sub-mesh geometry with a vertex buffer, the conversion to a
triangle-mesh shape succeeds and yields the flat vertex array obtained by
applying the world scale component-wise to every vertex coordinate, and the
index array is the source index buffer when one exists and the sequential
list `0 .. N-1` over the `N` vertices otherwise. -/
theorem trimesh_conversion_spec (geometry : BufferGeometry) (scale : Vec3)
    (ps : List Vec3) (hpos : geometry.positions = some ps) :
    ∃ t : Trimesh,
      createTrimeshFromGeometry geometry scale = .ok t ∧
      t.vertices =
        (ps.flatMap fun p => [p.x * scale.x, p.y * scale.y, p.z * scale.z]) ∧
      (∀ ix : List ℕ, geometry.index = some ix → t.indices = ix) ∧
      (geometry.index = none → t.indices = List.range ps.length) := by
  refine ⟨{ vertices := trimeshVertexLoop scale ps
            indices :=
              match geometry.index with
              | some ix => ix
              | none => List.range ps.length }, ?_, ?_, ?_, ?_⟩
  · unfold createTrimeshFromGeometry
    rw [hpos]
  · exact trimeshVertexLoop_eq scale ps
  · intro ix hix
    simp [hix]
  · intro hix
    simp [hix]

/-- Witness for C7: a two-vertex geometry without an index buffer, scaled by
`(2, 3, 4)`, produces the scaled flat vertex list and the synthesized index
list `[0, 1]`. -/
theorem trimesh_conversion_spec_witness :
    ∃ t : Trimesh,
      createTrimeshFromGeometry
          { positions := some [⟨1, 1, 1⟩, ⟨5, 6, 7⟩], index := none }
          ⟨2, 3, 4⟩ = .ok t ∧
      t.vertices =
        ([⟨1, 1, 1⟩, ⟨5, 6, 7⟩] : List Vec3).flatMap
          (fun p => [p.x * 2, p.y * 3, p.z * 4]) ∧
      (∀ ix : List ℕ,
        ({ positions := some [⟨1, 1, 1⟩, ⟨5, 6, 7⟩],
           index := none } : BufferGeometry).index = some ix →
          t.indices = ix) ∧
      (({ positions := some [⟨1, 1, 1⟩, ⟨5, 6, 7⟩],
          index := none } : BufferGeometry).index = none →
        t.indices = List.range 2) :=
  trimesh_conversion_spec
    { positions := some [⟨1, 1, 1⟩, ⟨5, 6, 7⟩], index := none }
    ⟨2, 3, 4⟩ [⟨1, 1, 1⟩, ⟨5, 6, 7⟩] rfl

lemma processChild_eq_none_of_not_renderable (root : Vec3) (m : SubMesh)
    (h : (m.isMesh && m.geometry.isSome) = false) :
    processChild root m = none := by
  unfold processChild
  rw [h]
  rfl

lemma processChild_isSome_of_valid (root : Vec3) (m : SubMesh)
    (geo : BufferGeometry) (ps : List Vec3) (hm : m.isMesh = true)
    (hgeo : m.geometry = some geo) (hps : geo.positions = some ps) :
    (processChild root m).isSome = true := by
  unfold processChild
  rw [hgeo]
  simp [hm, createTrimeshFromGeometry, hps]

lemma compoundShapesOf_length_le (root : Vec3) (subs : List SubMesh) :
    (compoundShapesOf root subs).length ≤ (renderableSubMeshes subs).length := by
  induction subs with
  | nil => exact Nat.le_refl 0
  | cons m rest ih =>
      unfold compoundShapesOf renderableSubMeshes at *
      rw [List.filterMap_cons, List.filter_cons]
      cases hren : (m.isMesh && m.geometry.isSome) with
      | false =>
          rw [processChild_eq_none_of_not_renderable root m hren]
          simpa using ih
      | true =>
          cases hpc : processChild root m with
          | none => simpa using Nat.le_succ_of_le ih
          | some s => simpa using ih

lemma compoundShapesOf_length_eq (root : Vec3) (subs : List SubMesh)
    (hvalid : ∀ m ∈ renderableSubMeshes subs, ∃ geo ps,
        m.geometry = some geo ∧ geo.positions = some ps) :
    (compoundShapesOf root subs).length = (renderableSubMeshes subs).length := by
  induction subs with
  | nil => rfl
  | cons m rest ih =>
      have hvalid' : ∀ m' ∈ renderableSubMeshes rest, ∃ geo ps,
          m'.geometry = some geo ∧ geo.positions = some ps := by
        intro m' hm'
        refine hvalid m' ?_
        unfold renderableSubMeshes at *
        rw [List.filter_cons]
        split <;> simp [hm']
      unfold compoundShapesOf renderableSubMeshes at *
      rw [List.filterMap_cons, List.filter_cons]
      cases hren : (m.isMesh && m.geometry.isSome) with
      | false =>
          rw [processChild_eq_none_of_not_renderable root m hren]
          simpa using ih hvalid'
      | true =>
          have hmem : m ∈ List.filter (fun m => m.isMesh && m.geometry.isSome)
              (m :: rest) := by
            rw [List.filter_cons]
            simp [hren]
          obtain ⟨geo, ps, hgeo, hps⟩ := hvalid m hmem
          have hm : m.isMesh = true := by
            have h := hren
            rw [Bool.and_eq_true] at h
            exact h.1
          have hsome := processChild_isSome_of_valid root m geo ps hm hgeo hps
          cases hpc : processChild root m with
          | none => rw [hpc] at hsome; exact absurd hsome (by simp)
          | some s => simpa using ih hvalid'

/-- C8: per-shape failure is skipped while conversion continues — a sub-mesh
whose shape construction fails contributes nothing and the surrounding
sub-meshes convert as if it were absent — so the compound body's shape count
never exceeds the number of renderable sub-meshes (`isMesh` with a geometry)
of the traversed model, and equals it when every renderable sub-mesh has a
valid non-empty vertex buffer. -/
theorem compound_body_shape_count :
    (∀ model : SceneNode,
        (createCompoundBodyFromModel model).length ≤
          (renderableSubMeshes model.traverse).length) ∧
    (∀ model : SceneNode,
        (∀ m ∈ renderableSubMeshes model.traverse, ∃ geo ps,
            m.geometry = some geo ∧ geo.positions = some ps ∧ ps ≠ []) →
        (createCompoundBodyFromModel model).length =
          (renderableSubMeshes model.traverse).length) ∧
    (∀ (root : Vec3) (pre post : List SubMesh) (bad : SubMesh),
        processChild root bad = none →
        compoundShapesOf root (pre ++ bad :: post) =
          compoundShapesOf root pre ++ compoundShapesOf root post) := by
  refine ⟨?_, ?_, ?_⟩
  · intro model
    exact compoundShapesOf_length_le model.self.worldPosition model.traverse
  · intro model hvalid
    refine compoundShapesOf_length_eq model.self.worldPosition model.traverse ?_
    intro m hm
    obtain ⟨geo, ps, hgeo, hps, _⟩ := hvalid m hm
    exact ⟨geo, ps, hgeo, hps⟩
  · intro root pre post bad hbad
    unfold compoundShapesOf
    rw [List.filterMap_append, List.filterMap_cons, hbad]

/-- Witness for C8: a root with one valid mesh child and one mesh child whose
geometry lacks a vertex buffer yields exactly one shape (the bad child is
skipped, the good one still converts), matching the count bound and the
skip-and-continue equation at concrete inputs. -/
theorem compound_body_shape_count_witness :
    ((createCompoundBodyFromModel
        (SceneNode.node
          { isMesh := false, geometry := none, worldScale := ⟨1, 1, 1⟩,
            worldPosition := ⟨0, 0, 0⟩, worldQuaternion := ⟨0, 0, 0, 1⟩ }
          [SceneNode.node
              { isMesh := true
                geometry := some { positions := some [⟨1, 2, 3⟩], index := none }
                worldScale := ⟨1, 1, 1⟩, worldPosition := ⟨0, 0, 0⟩,
                worldQuaternion := ⟨0, 0, 0, 1⟩ } []])).length =
      (renderableSubMeshes
        (SceneNode.node
          { isMesh := false, geometry := none, worldScale := ⟨1, 1, 1⟩,
            worldPosition := ⟨0, 0, 0⟩, worldQuaternion := ⟨0, 0, 0, 1⟩ }
          [SceneNode.node
              { isMesh := true
                geometry := some { positions := some [⟨1, 2, 3⟩], index := none }
                worldScale := ⟨1, 1, 1⟩, worldPosition := ⟨0, 0, 0⟩,
                worldQuaternion := ⟨0, 0, 0, 1⟩ } []]).traverse).length) ∧
    compoundShapesOf ⟨0, 0, 0⟩
        ([] ++
          ({ isMesh := true, geometry := some { positions := none, index := none },
             worldScale := ⟨1, 1, 1⟩, worldPosition := ⟨0, 0, 0⟩,
             worldQuaternion := ⟨0, 0, 0, 1⟩ } : SubMesh) ::
            [({ isMesh := true
                geometry := some { positions := some [⟨1, 2, 3⟩], index := none }
                worldScale := ⟨1, 1, 1⟩, worldPosition := ⟨0, 0, 0⟩,
                worldQuaternion := ⟨0, 0, 0, 1⟩ } : SubMesh)]) =
      compoundShapesOf ⟨0, 0, 0⟩ [] ++
        compoundShapesOf ⟨0, 0, 0⟩
          [({ isMesh := true
              geometry := some { positions := some [⟨1, 2, 3⟩], index := none }
              worldScale := ⟨1, 1, 1⟩, worldPosition := ⟨0, 0, 0⟩,
              worldQuaternion := ⟨0, 0, 0, 1⟩ } : SubMesh)] := by
  constructor
  · apply compound_body_shape_count.2.1
    intro m hm
    have hlist : renderableSubMeshes
        (SceneNode.node
          { isMesh := false, geometry := none, worldScale := ⟨1, 1, 1⟩,
            worldPosition := ⟨0, 0, 0⟩, worldQuaternion := ⟨0, 0, 0, 1⟩ }
          [SceneNode.node
              { isMesh := true
                geometry := some { positions := some [⟨1, 2, 3⟩], index := none }
                worldScale := ⟨1, 1, 1⟩, worldPosition := ⟨0, 0, 0⟩,
                worldQuaternion := ⟨0, 0, 0, 1⟩ } []]).traverse =
        [{ isMesh := true
           geometry := some { positions := some [⟨1, 2, 3⟩], index := none }
           worldScale := ⟨1, 1, 1⟩, worldPosition := ⟨0, 0, 0⟩,
           worldQuaternion := ⟨0, 0, 0, 1⟩ }] := rfl
    rw [hlist, List.mem_singleton] at hm
    subst hm
    exact ⟨{ positions := some [⟨1, 2, 3⟩], index := none }, [⟨1, 2, 3⟩],
      rfl, rfl, by simp⟩
  · apply compound_body_shape_count.2.2
    unfold processChild createTrimeshFromGeometry
    simp

/-! ## Claim theorems: velocity clamp -/

lemma Vec3.normSq_smul (c : ℚ) (v : Vec3) :
    (Vec3.smul c v).normSq = c ^ 2 * v.normSq := by
  unfold Vec3.smul Vec3.normSq
  ring

/-- C1: the velocity clamp modelled from the spec leaves a velocity at or
below the maximum untouched; when the magnitude exceeds the maximum it
uniformly rescales the vector so that the resulting squared magnitude equals
`maxSpeed²` (equal magnitudes, both being non-negative) while the direction
is unchanged (the result is a positive scalar multiple of the input); in
particular a velocity of magnitude `2·maxSpeed` becomes exactly `½` of
itself, of magnitude `maxSpeed`. -/
theorem velocity_clamp_spec (maxSpeed speed : ℚ) (v : Vec3)
    (hmax : 0 < maxSpeed) (_hs : 0 ≤ speed) (hsq : speed ^ 2 = v.normSq) :
    (speed ≤ maxSpeed → clampVelocity maxSpeed speed v = v) ∧
    (maxSpeed < speed →
      (clampVelocity maxSpeed speed v).normSq = maxSpeed ^ 2 ∧
      ∃ c : ℚ, 0 < c ∧ clampVelocity maxSpeed speed v = Vec3.smul c v) ∧
    (speed = 2 * maxSpeed →
      (clampVelocity maxSpeed speed v).normSq = maxSpeed ^ 2 ∧
      clampVelocity maxSpeed speed v = Vec3.smul (1/2) v) := by
  have hover : ∀ hlt : maxSpeed < speed,
      clampVelocity maxSpeed speed v = Vec3.smul (maxSpeed / speed) v := by
    intro hlt
    unfold clampVelocity
    rw [if_pos hlt]
  refine ⟨?_, ?_, ?_⟩
  · intro hle
    unfold clampVelocity
    rw [if_neg (not_lt.mpr hle)]
  · intro hlt
    have hs0 : speed ≠ 0 := ne_of_gt (lt_trans hmax hlt)
    constructor
    · rw [hover hlt, Vec3.normSq_smul, ← hsq]
      field_simp
    · exact ⟨maxSpeed / speed, div_pos hmax (lt_trans hmax hlt), hover hlt⟩
  · intro h2
    have hlt : maxSpeed < speed := by rw [h2]; linarith
    have hs0 : speed ≠ 0 := ne_of_gt (lt_trans hmax hlt)
    constructor
    · rw [hover hlt, Vec3.normSq_smul, ← hsq]
      field_simp
    · rw [hover hlt, h2]
      have : maxSpeed / (2 * maxSpeed) = 1 / 2 := by
        field_simp
        ring
      rw [this]

/-- Witness for C1: the velocity `(4, 0, 0)` of magnitude `4 = 2·maxSpeed`
with `maxSpeed = 2` is clamped to `(2, 0, 0)`: squared magnitude `maxSpeed²`
and direction unchanged (one half of the original vector). -/
theorem velocity_clamp_spec_witness :
    (clampVelocity 2 4 ⟨4, 0, 0⟩).normSq = (2 : ℚ) ^ 2 ∧
    clampVelocity 2 4 ⟨4, 0, 0⟩ = Vec3.smul (1/2) ⟨4, 0, 0⟩ :=
  (velocity_clamp_spec 2 4 ⟨4, 0, 0⟩ (by norm_num) (by norm_num)
    (by norm_num [Vec3.normSq])).2.2 (by norm_num)
